import Mathlib

/-!
Verification of the credit-ledger and progress-aggregation core of the
mockly backend.  The definitions below are a shallow embedding of
`app/credits.py`, `app/users.py` and `app/models.py`: SQLAlchemy rows become
Lean structures, the async session becomes explicit state passing on a
database value, Python ints become `Int`, SQL floats become `ℚ`, timestamps
become `Nat`, and nullable columns become `Option`.
-/

namespace Mockly

/-- A row of the `user` table.  Only the columns read or written by the
ledger code are modelled.  Note: the `credits` column is read and written
throughout `app/credits.py`; the column declaration itself does not appear
in `app/models.py` (the `User` model there carries only profile fields), so
the field here is determined by its uses in `app/credits.py`. -/
structure UserRow where
  id : String
  credits : Int
deriving Repr, DecidableEq

/-- A row of the credit-transaction table.  The `UserCreditTransaction`
model class is imported by `app/credits.py` from `app/models.py` but is not
declared there; its fields are exactly those set at its two construction
sites in `app/credits.py` (`deduct_credits` and `add_credits`), plus the
database-assigned `id` and the `created_at` column that
`get_credit_transactions` orders by. -/
structure Txn where
  id : Nat
  user_id : String
  transaction_type : String
  credits_change : Int
  credits_balance_after : Int
  description : String
  session_id : Option String
  created_at : Nat
deriving Repr, DecidableEq

/-- The ledger database: the `user` rows, the append-only transaction
table (in insertion/commit order), the next autoincrement id, and the
current clock used for `created_at` defaults. -/
structure LedgerDB where
  users : List UserRow
  txns : List Txn
  nextId : Nat
  now : Nat
deriving Repr, DecidableEq

/-- Embeds `select(User).where(User.id == user_id)` followed by
`scalar_one_or_none()`: the first row with the given id, if any. -/
def findUser (db : LedgerDB) (user_id : String) : Option UserRow :=
  db.users.find? (fun u => u.id == user_id)

/-- Replaces the `credits` column of the row with the given id. -/
def setCredits (users : List UserRow) (user_id : String) (c : Int) : List UserRow :=
  users.map (fun u => if u.id == user_id then { u with credits := c } else u)

/-- Embeds `check_user_credits` (`app/credits.py` lines 22-34): reads the
`credits` column of the user; `False` when the row is missing, otherwise
`credits >= required_credits`. -/
def check_user_credits (db : LedgerDB) (user_id : String) (required_credits : Int) : Bool :=
  match findUser db user_id with
  | none => false
  | some u => decide (required_credits ≤ u.credits)

/-- Embeds `deduct_credits` (`app/credits.py` lines 36-77): checks
sufficiency, re-fetches the user, decrements `credits` by `amount`, and
appends a transaction with `credits_change = -amount` and
`credits_balance_after` equal to the decremented balance; the write and the
append are committed together.  Returns the new database and the Boolean
result of the call. -/
def deduct_credits (db : LedgerDB) (user_id : String) (amount : Int)
    (transaction_type description : String) (session_id : Option String) :
    LedgerDB × Bool :=
  if check_user_credits db user_id amount then
    match findUser db user_id with
    | none => (db, false)
    | some user =>
      let newCredits := user.credits - amount
      let txn : Txn :=
        { id := db.nextId
          user_id := user_id
          transaction_type := transaction_type
          credits_change := -amount
          credits_balance_after := newCredits
          description := description
          session_id := session_id
          created_at := db.now }
      ({ db with
          users := setCredits db.users user_id newCredits
          txns := db.txns ++ [txn]
          nextId := db.nextId + 1 }, true)
  else (db, false)

/-- Embeds `add_credits` (`app/credits.py` lines 79-116): fetches the user,
increments `credits` by `amount` (no sign check here), and appends a
transaction with `credits_change = amount` and `credits_balance_after`
equal to the incremented balance. -/
def add_credits (db : LedgerDB) (user_id : String) (amount : Int)
    (transaction_type description : String) (session_id : Option String) :
    LedgerDB × Bool :=
  match findUser db user_id with
  | none => (db, false)
  | some user =>
    let newCredits := user.credits + amount
    let txn : Txn :=
      { id := db.nextId
        user_id := user_id
        transaction_type := transaction_type
        credits_change := amount
        credits_balance_after := newCredits
        description := description
        session_id := session_id
        created_at := db.now }
    ({ db with
        users := setCredits db.users user_id newCredits
        txns := db.txns ++ [txn]
        nextId := db.nextId + 1 }, true)

/-- Outcome of the purchase/refund HTTP endpoints (response message bodies
are not modelled beyond the balance they report). -/
inductive HttpResult where
  | ok (credits : Int)
  | badRequest (detail : String)
  | serverError (detail : String)
deriving Repr, DecidableEq

/-- The balance the endpoint reports after `session.refresh(user)`:
the current `credits` column of the row. -/
def getCredits (db : LedgerDB) (user_id : String) : Int :=
  match findUser db user_id with
  | none => 0
  | some u => u.credits

/-- Embeds `purchase_credits` (`app/credits.py` lines 158-200): rejects
`amount <= 0` with HTTP 400 before any storage access, otherwise calls
`add_credits` with type `purchase` and reports the refreshed balance. -/
def purchase_credits (db : LedgerDB) (user_id : String) (amount : Int)
    (payment_method : String) : LedgerDB × HttpResult :=
  if amount ≤ 0 then (db, .badRequest "Amount must be positive")
  else
    let r := add_credits db user_id amount "purchase"
      ("Purchased " ++ toString amount ++ " credits via " ++ payment_method) none
    if r.2 then (r.1, .ok (getCredits r.1 user_id))
    else (r.1, .serverError "Failed to add credits")

/-- Embeds `refund_credits` (`app/credits.py` lines 202-239): rejects
`amount <= 0` with HTTP 400 before any storage access, otherwise calls
`add_credits` with type `refund` and reports the refreshed balance. -/
def refund_credits (db : LedgerDB) (user_id : String) (amount : Int)
    (reason : String) : LedgerDB × HttpResult :=
  if amount ≤ 0 then (db, .badRequest "Amount must be positive")
  else
    let r := add_credits db user_id amount "refund" ("Refund: " ++ reason) none
    if r.2 then (r.1, .ok (getCredits r.1 user_id))
    else (r.1, .serverError "Failed to refund credits")

/-- The transactions of one user, in insertion (commit) order: the
`where(UserCreditTransaction.user_id == user.id)` filter. -/
def userTxns (db : LedgerDB) (user_id : String) : List Txn :=
  db.txns.filter (fun t => t.user_id == user_id)

/-- Inserts a transaction into a list that is sorted by `created_at`
descending, after every entry with a greater-or-equal key. -/
def insertByCreatedAtDesc (t : Txn) : List Txn → List Txn
  | [] => [t]
  | h :: rest =>
    if h.created_at < t.created_at then t :: h :: rest
    else h :: insertByCreatedAtDesc t rest

/-- Embeds `order_by(desc(UserCreditTransaction.created_at))` as a stable
descending sort on the stored row order (rows with equal `created_at` keep
their insertion order; the SQL query names no secondary sort key). -/
def orderByCreatedAtDesc (l : List Txn) : List Txn :=
  l.foldl (fun acc t => insertByCreatedAtDesc t acc) []

/-- Embeds `get_credit_transactions` (`app/credits.py` lines 129-156):
the total count of the rows of the user, and the page obtained by sorting
the rows of the user newest-first by `created_at`, skipping `offset` and
taking `limit`. -/
def get_credit_transactions (db : LedgerDB) (user_id : String)
    (limit offset : Nat) : List Txn × Nat :=
  let mine := userTxns db user_id
  (((orderByCreatedAtDesc mine).drop offset).take limit, mine.length)

/-- One ledger operation on an account: a debit through `deduct_credits`
or a credit through `add_credits`. -/
inductive LedgerOp where
  | debit (amount : Int) (transaction_type description : String)
      (session_id : Option String)
  | credit (amount : Int) (transaction_type description : String)
      (session_id : Option String)
deriving Repr, DecidableEq

/-- Applies one ledger operation to the database, returning the new
database and the Boolean result of the call. -/
def applyLedgerOp (db : LedgerDB) (user_id : String) :
    LedgerOp → LedgerDB × Bool
  | .debit a t d s => deduct_credits db user_id a t d s
  | .credit a t d s => add_credits db user_id a t d s

/-- Runs a sequence of ledger operations left to right. -/
def runLedgerOps (db : LedgerDB) (user_id : String) (ops : List LedgerOp) :
    LedgerDB :=
  ops.foldl (fun acc op => (applyLedgerOp acc user_id op).1) db

/-- Every operation of the sequence returns `True` when run in order. -/
def opsAllSucceed (db : LedgerDB) (user_id : String) : List LedgerOp → Bool
  | [] => true
  | op :: rest =>
    let r := applyLedgerOp db user_id op
    r.2 && opsAllSucceed r.1 user_id rest

/-- Sum of the `credits_change` column over a list of transactions. -/
def sumChanges (l : List Txn) : Int :=
  (l.map (fun t => t.credits_change)).sum

/-- Checks that, starting from `acc`, each entry of the log carries a
`credits_balance_after` equal to the running prefix sum of
`credits_change` up to and including itself. -/
def prefixSumOk : Int → List Txn → Bool
  | _, [] => true
  | acc, t :: rest =>
    (t.credits_balance_after == acc + t.credits_change) &&
      prefixSumOk (acc + t.credits_change) rest

/-- The ledger invariant of one account: the balance equals the sum of the
`credits_change` values of the log of the user, and the log satisfies the
prefix-sum property from 0. -/
def ledgerInvariant (db : LedgerDB) (user_id : String) : Prop :=
  getCredits db user_id = sumChanges (userTxns db user_id) ∧
    prefixSumOk 0 (userTxns db user_id) = true

/-- A concrete one-user ledger state used as the C1 witness input. -/
def exC1DB : LedgerDB :=
  { users := [{ id := "u", credits := 0 }], txns := [], nextId := 1, now := 0 }

/-- A concrete operation sequence used as the C1 witness input. -/
def exC1Ops : List LedgerOp :=
  [.credit 5 "purchase" "Purchased 5 credits via card" none,
   .debit 1 "session_start" "Interview session started" none,
   .credit 10 "purchase" "Purchased 10 credits via card" none]

/-- The control state of one in-flight `deduct_credits` call running in
its own ORM session: the requested amount, a program counter, the balance
snapshot held by the session, and the result once finished. -/
structure DeductCall where
  amount : Int
  pc : Nat
  snapshot : Int
  result : Option Bool
deriving Repr, DecidableEq

/-- One micro-step of `deduct_credits`, at the granularity at which the
storage layer interleaves two concurrent calls (each call runs in its own
session, and the commit writes the balance computed from the snapshot that
session fetched).  pc 0 is the `check_user_credits` read, pc 1 the
`select(User)` fetch that snapshots `credits`, pc 2 the commit that writes
`snapshot - amount` and appends the transaction, pc 3 is finished. -/
def stepDeduct (db : LedgerDB) (user_id : String) (p : DeductCall) :
    LedgerDB × DeductCall :=
  match p.pc with
  | 0 =>
    if check_user_credits db user_id p.amount then (db, { p with pc := 1 })
    else (db, { p with pc := 3, result := some false })
  | 1 =>
    match findUser db user_id with
    | none => (db, { p with pc := 3, result := some false })
    | some u => (db, { p with pc := 2, snapshot := u.credits })
  | 2 =>
    let newCredits := p.snapshot - p.amount
    let txn : Txn :=
      { id := db.nextId
        user_id := user_id
        transaction_type := "session_start"
        credits_change := -p.amount
        credits_balance_after := newCredits
        description := "Interview session started"
        session_id := none
        created_at := db.now }
    ({ db with
        users := setCredits db.users user_id newCredits
        txns := db.txns ++ [txn]
        nextId := db.nextId + 1 },
      { p with pc := 3, result := some true })
  | _ => (db, p)

/-- A shared database together with two in-flight `deduct_credits` calls. -/
structure ConcState where
  db : LedgerDB
  procA : DeductCall
  procB : DeductCall
deriving Repr, DecidableEq

/-- Schedules one micro-step: `true` steps call A, `false` steps call B. -/
def stepConc (user_id : String) (s : ConcState) (chooseA : Bool) : ConcState :=
  if chooseA then
    let r := stepDeduct s.db user_id s.procA
    { s with db := r.1, procA := r.2 }
  else
    let r := stepDeduct s.db user_id s.procB
    { s with db := r.1, procB := r.2 }

/-- Runs an interleaving of the two calls. -/
def runConc (user_id : String) (s : ConcState) (sched : List Bool) : ConcState :=
  sched.foldl (stepConc user_id) s

/-- Two concurrent debits of 1 against a balance of 1, both ready to run. -/
def exC2Start : ConcState :=
  { db := { users := [{ id := "u", credits := 1 }], txns := [], nextId := 1, now := 0 }
    procA := { amount := 1, pc := 0, snapshot := 0, result := none }
    procB := { amount := 1, pc := 0, snapshot := 0, result := none } }

/-- The interleaving in which both calls pass the check and fetch the user
before either commits. -/
def exC2Sched : List Bool := [true, false, true, false, true, false]

/-- The ordering relation the claim asserts for the transaction listing:
newest first by `created_at`, with ties broken by `id` descending.  Stated
from the words of the claim, for comparison with the query the code
issues. -/
def newestFirstTiesIdDesc (l : List Txn) : Prop :=
  l.Pairwise (fun a b =>
    b.created_at < a.created_at ∨ (b.created_at = a.created_at ∧ b.id < a.id))

/-- Two transactions of the same user with equal `created_at` timestamps,
stored in ascending id order. -/
def exC8DB : LedgerDB :=
  { users := [{ id := "u", credits := 4 }]
    txns :=
      [{ id := 1
         user_id := "u"
         transaction_type := "purchase"
         credits_change := 5
         credits_balance_after := 5
         description := "Purchased 5 credits via card"
         session_id := none
         created_at := 7 },
       { id := 2
         user_id := "u"
         transaction_type := "session_start"
         credits_change := -1
         credits_balance_after := 4
         description := "Interview session started"
         session_id := none
         created_at := 7 }]
    nextId := 3
    now := 7 }

/-- A row of the `user_progress` table (`app/models.py` lines 31-61).
Scores are modelled as exact rationals, `session_date` as a `Nat`
timestamp. -/
structure ProgressRecord where
  id : Nat
  user_id : String
  session_date : Nat
  question_type : Option String
  question_text : Option String
  content_score : Option ℚ
  voice_score : Option ℚ
  face_score : Option ℚ
  overall_score : Option ℚ
  transcript : Option String
  star_analysis : Option String
  tips_provided : Option String
  session_duration_seconds : Option Int
  completed : Bool
deriving Repr, DecidableEq

/-- A row of the `user_stats` table (`app/models.py` lines 63-88).  The
database-managed `updated_at` column is not modelled. -/
structure UserStatsRow where
  id : Nat
  user_id : String
  total_sessions : Int
  average_content_score : Option ℚ
  average_voice_score : Option ℚ
  average_face_score : Option ℚ
  average_overall_score : Option ℚ
  best_overall_score : Option ℚ
  most_recent_session : Option Nat
  streak_days : Int
deriving Repr, DecidableEq

/-- Column defaults of `user_stats`: `total_sessions=0`, `streak_days=0`,
every aggregate column nullable and unset — the row built by
`UserStats(user_id=user_id)`. -/
def defaultStats (id : Nat) (user_id : String) : UserStatsRow :=
  { id := id
    user_id := user_id
    total_sessions := 0
    average_content_score := none
    average_voice_score := none
    average_face_score := none
    average_overall_score := none
    best_overall_score := none
    most_recent_session := none
    streak_days := 0 }

/-- The progress/stats database: the `user_progress` rows in insertion
order, the `user_stats` rows (unique per `user_id`), the autoincrement
counters, and the clock used for `session_date` defaults. -/
structure UsersDB where
  progress : List ProgressRecord
  stats : List UserStatsRow
  nextProgressId : Nat
  nextStatsId : Nat
  now : Nat
deriving Repr, DecidableEq

/-- The request body `UserProgressCreate` (`app/user_schemas.py` lines
29-39); every field optional.  Its `overall_score` field is accepted but
ignored by `create_progress_record`, which recomputes it. -/
structure UserProgressCreate where
  question_type : Option String
  question_text : Option String
  content_score : Option ℚ
  voice_score : Option ℚ
  face_score : Option ℚ
  overall_score : Option ℚ
  transcript : Option String
  star_analysis : Option String
  tips_provided : Option String
  session_duration_seconds : Option Int
deriving Repr, DecidableEq

/-- The mean computation of `create_progress_record` (`app/users.py` lines
55-60): collect the three axis scores, keep the non-null ones, and return
their sum divided by their count when at least one is present. -/
def computeOverallScore (content voice face : Option ℚ) : Option ℚ :=
  let valid_scores := [content, voice, face].filterMap (fun s => s)
  if valid_scores.isEmpty then none
  else some (valid_scores.sum / valid_scores.length)

/-- The Python `sum(xs) / len(xs) if xs else None` pattern used for each
average in `update_user_stats` (`app/users.py` lines 178-181). -/
def statsAvg (l : List ℚ) : Option ℚ :=
  if l.isEmpty then none else some (l.sum / l.length)

/-- The assignments of `update_user_stats` (`app/users.py` lines 170-202)
onto an existing or freshly created stats row: the seven recomputed
columns are overwritten; `id` and `streak_days` are left untouched. -/
def recomputedStatsFields (progress_records : List ProgressRecord)
    (r : UserStatsRow) : UserStatsRow :=
  { r with
      total_sessions := (progress_records.length : Int)
      average_content_score :=
        statsAvg (progress_records.filterMap (fun p => p.content_score))
      average_voice_score :=
        statsAvg (progress_records.filterMap (fun p => p.voice_score))
      average_face_score :=
        statsAvg (progress_records.filterMap (fun p => p.face_score))
      average_overall_score :=
        statsAvg (progress_records.filterMap (fun p => p.overall_score))
      best_overall_score :=
        (progress_records.filterMap (fun p => p.overall_score)).max?
      most_recent_session :=
        (progress_records.map (fun p => p.session_date)).max? }

/-- Overwrites the recomputed columns on the (unique) stats row of the
user, leaving every other row unchanged. -/
def overwriteStats (progress_records : List ProgressRecord) (user_id : String)
    (r : UserStatsRow) : UserStatsRow :=
  if r.user_id == user_id then recomputedStatsFields progress_records r else r

/-- Embeds `update_user_stats` (`app/users.py` lines 159-204): reads the
entire progress history of the user; returns unchanged if it is empty;
otherwise recomputes the aggregates and writes them onto the existing
stats row of the user, or onto a freshly created default row if none
exists. -/
def update_user_stats (db : UsersDB) (user_id : String) : UsersDB :=
  let progress_records := db.progress.filter (fun p => p.user_id == user_id)
  if progress_records.isEmpty then db
  else
    match db.stats.find? (fun s => s.user_id == user_id) with
    | some _ =>
      { db with
          stats := db.stats.map (overwriteStats progress_records user_id) }
    | none =>
      { db with
          stats := db.stats ++
            [recomputedStatsFields progress_records
              (defaultStats db.nextStatsId user_id)]
          nextStatsId := db.nextStatsId + 1 }

/-- Embeds `get_user_stats` (`app/users.py` lines 103-121): returns the
stats row of the user if one exists; otherwise creates, commits and
returns a default row. -/
def get_user_stats (db : UsersDB) (user_id : String) : UsersDB × UserStatsRow :=
  match db.stats.find? (fun s => s.user_id == user_id) with
  | some s => (db, s)
  | none =>
    let s := defaultStats db.nextStatsId user_id
    ({ db with stats := db.stats ++ [s], nextStatsId := db.nextStatsId + 1 }, s)

/-- Embeds `create_progress_record` (`app/users.py` lines 47-83): computes
`overall_score` from the non-null axis scores, persists the new record
(`completed` defaults to true, `session_date` to the clock), then runs
`update_user_stats`; returns the new database and the created record. -/
def create_progress_record (db : UsersDB) (user_id : String)
    (progress_data : UserProgressCreate) : UsersDB × ProgressRecord :=
  let overall_score := computeOverallScore progress_data.content_score
    progress_data.voice_score progress_data.face_score
  let progress_record : ProgressRecord :=
    { id := db.nextProgressId
      user_id := user_id
      session_date := db.now
      question_type := progress_data.question_type
      question_text := progress_data.question_text
      content_score := progress_data.content_score
      voice_score := progress_data.voice_score
      face_score := progress_data.face_score
      overall_score := overall_score
      transcript := progress_data.transcript
      star_analysis := progress_data.star_analysis
      tips_provided := progress_data.tips_provided
      session_duration_seconds := progress_data.session_duration_seconds
      completed := true }
  let db1 : UsersDB :=
    { db with
        progress := db.progress ++ [progress_record]
        nextProgressId := db.nextProgressId + 1 }
  (update_user_stats db1 user_id, progress_record)

/-- One call into the progress/stats subsystem. -/
inductive UsersOp where
  | record (user_id : String) (data : UserProgressCreate)
  | stats (user_id : String)
  | recompute (user_id : String)
deriving Repr, DecidableEq

/-- Applies one call, keeping only the resulting database state. -/
def applyUsersOp (db : UsersDB) : UsersOp → UsersDB
  | .record user_id d => (create_progress_record db user_id d).1
  | .stats user_id => (get_user_stats db user_id).1
  | .recompute user_id => update_user_stats db user_id

/-- Runs a sequence of calls left to right. -/
def runUsersOps (db : UsersDB) (ops : List UsersOp) : UsersDB :=
  ops.foldl applyUsersOp db

/-- The empty initial state: no progress rows, no stats rows. -/
def initialUsersDB : UsersDB :=
  { progress := [], stats := [], nextProgressId := 1, nextStatsId := 1, now := 0 }

/-- Invariant: every stats row of a user with no progress records carries
the column defaults — zero sessions and null aggregates. -/
def freshStatsInv (db : UsersDB) : Prop :=
  ∀ s ∈ db.stats, db.progress.filter (fun p => p.user_id == s.user_id) = [] →
    s.total_sessions = 0 ∧ s.average_content_score = none ∧
      s.average_voice_score = none ∧ s.average_face_score = none ∧
      s.average_overall_score = none

/-- A request body carrying only `voice_score = 3.5`. -/
def exVoiceOnly : UserProgressCreate :=
  { question_type := some "behavioral"
    question_text := none
    content_score := none
    voice_score := some (3.5 : ℚ)
    face_score := none
    overall_score := none
    transcript := none
    star_analysis := none
    tips_provided := none
    session_duration_seconds := none }

/-- A request body carrying `content_score = 4.0`, `voice_score = 3.5`,
`face_score = 4.2`. -/
def exAllThree : UserProgressCreate :=
  { question_type := some "behavioral"
    question_text := none
    content_score := some (4.0 : ℚ)
    voice_score := some (3.5 : ℚ)
    face_score := some (4.2 : ℚ)
    overall_score := none
    transcript := none
    star_analysis := none
    tips_provided := none
    session_duration_seconds := none }

/-- A request body with every optional field absent (no scores at all). -/
def exNoScores : UserProgressCreate :=
  { question_type := some "technical"
    question_text := none
    content_score := none
    voice_score := none
    face_score := none
    overall_score := none
    transcript := none
    star_analysis := none
    tips_provided := none
    session_duration_seconds := none }

/-- A database holding exactly one progress record, owned by user u. -/
def exC7DB : UsersDB :=
  { progress :=
      [{ id := 1
         user_id := "u"
         session_date := 3
         question_type := some "technical"
         question_text := none
         content_score := none
         voice_score := none
         face_score := none
         overall_score := none
         transcript := none
         star_analysis := none
         tips_provided := none
         session_duration_seconds := none
         completed := true }]
    stats := []
    nextProgressId := 2
    nextStatsId := 1
    now := 5 }

/-- Claim C3: a debit of strictly more than the current balance returns the
failure result and leaves the database (balance and transaction log)
exactly as it was: the pre- and post-states are identical. -/
theorem C3_insufficient_debit_is_noop (db : LedgerDB) (user_id : String)
    (amount : Int) (transaction_type description : String)
    (session_id : Option String) (u : UserRow)
    (hu : findUser db user_id = some u) (hlt : u.credits < amount) :
    deduct_credits db user_id amount transaction_type description session_id =
      (db, false) := by
  have hchk : check_user_credits db user_id amount = false := by
    unfold check_user_credits
    rw [hu]
    simp [not_le.mpr hlt]
  unfold deduct_credits
  rw [hchk]
  simp

/-- Witness for C3 at a concrete state: one user with balance 1, debited 2. -/
theorem C3_witness :
    deduct_credits
      { users := [{ id := "u", credits := 1 }], txns := [], nextId := 1, now := 0 }
      "u" 2 "session_start" "Interview session started" none =
      ({ users := [{ id := "u", credits := 1 }], txns := [], nextId := 1, now := 0 },
        false) :=
  C3_insufficient_debit_is_noop _ "u" 2 _ _ none { id := "u", credits := 1 }
    (by decide) (by decide)

/-- Claim C4: purchase and refund reject a non-positive amount with the
HTTP 400 invalid-amount error before any storage write: the returned
database is the unchanged input, so the balance is unchanged and no
transaction is appended. -/
theorem C4_nonpositive_amount_rejected (db : LedgerDB) (user_id : String)
    (amount : Int) (payment_method reason : String) (h : amount ≤ 0) :
    purchase_credits db user_id amount payment_method =
        (db, .badRequest "Amount must be positive") ∧
      refund_credits db user_id amount reason =
        (db, .badRequest "Amount must be positive") := by
  constructor
  · unfold purchase_credits
    simp [h]
  · unfold refund_credits
    simp [h]

/-- Witness for C4 at a concrete state: amount 0 on a one-user database. -/
theorem C4_witness :
    purchase_credits
        { users := [{ id := "u", credits := 5 }], txns := [], nextId := 1, now := 0 }
        "u" 0 "card" =
        ({ users := [{ id := "u", credits := 5 }], txns := [], nextId := 1, now := 0 },
          .badRequest "Amount must be positive") ∧
      refund_credits
        { users := [{ id := "u", credits := 5 }], txns := [], nextId := 1, now := 0 }
        "u" 0 "duplicate charge" =
        ({ users := [{ id := "u", credits := 5 }], txns := [], nextId := 1, now := 0 },
          .badRequest "Amount must be positive") :=
  C4_nonpositive_amount_rejected _ "u" 0 "card" "duplicate charge" (by decide)

/-- Claim C10: for a user id with no account row, the sufficiency check is
`false` for every requirement, and a debit returns the same `(db, false)`
failure outcome as an insufficient balance does; no distinct error is
produced. -/
theorem C10_missing_account_reads_as_insufficient (db : LedgerDB)
    (user_id : String) (required_credits amount : Int)
    (transaction_type description : String) (session_id : Option String)
    (h : findUser db user_id = none) :
    check_user_credits db user_id required_credits = false ∧
      deduct_credits db user_id amount transaction_type description session_id =
        (db, false) := by
  have hchk : ∀ r : Int, check_user_credits db user_id r = false := by
    intro r
    unfold check_user_credits
    rw [h]
  refine ⟨hchk required_credits, ?_⟩
  unfold deduct_credits
  rw [hchk amount]
  simp

/-- Witness for C10 at a concrete state: an empty database. -/
theorem C10_witness :
    check_user_credits { users := [], txns := [], nextId := 1, now := 0 } "ghost" 1 =
        false ∧
      deduct_credits { users := [], txns := [], nextId := 1, now := 0 } "ghost" 1
          "session_start" "Interview session started" none =
        ({ users := [], txns := [], nextId := 1, now := 0 }, false) :=
  C10_missing_account_reads_as_insufficient _ "ghost" 1 1 _ _ none (by decide)

theorem find?_setCredits (users : List UserRow) (user_id : String) (c : Int) :
    (setCredits users user_id c).find? (fun u => u.id == user_id) =
      (users.find? (fun u => u.id == user_id)).map
        (fun u => { u with credits := c }) := by
  induction users with
  | nil => rfl
  | cons u rest ih =>
    by_cases h : u.id = user_id
    · simp [setCredits, List.find?, h]
    · have hb : (u.id == user_id) = false := by simp [h]
      simpa [setCredits, List.find?, hb] using ih

theorem sumChanges_append (l : List Txn) (t : Txn) :
    sumChanges (l ++ [t]) = sumChanges l + t.credits_change := by
  simp [sumChanges]

theorem prefixSumOk_append (l : List Txn) (t : Txn) (acc : Int) :
    prefixSumOk acc (l ++ [t]) =
      (prefixSumOk acc l &&
        (t.credits_balance_after == acc + sumChanges l + t.credits_change)) := by
  induction l generalizing acc with
  | nil => simp [prefixSumOk, sumChanges]
  | cons h rest ih =>
    simp [prefixSumOk, ih, sumChanges, Bool.and_assoc, add_assoc]

theorem prefixSumOk_getLast (l : List Txn) (acc : Int) (t : Txn)
    (hok : prefixSumOk acc l = true) (hlast : l.getLast? = some t) :
    t.credits_balance_after = acc + sumChanges l := by
  induction l generalizing acc with
  | nil => cases hlast
  | cons h rest ih =>
    rw [prefixSumOk] at hok
    obtain ⟨hba, hrest⟩ := Bool.and_eq_true_iff.mp hok
    cases rest with
    | nil =>
      have ht : h = t := by simpa using hlast
      subst ht
      have := beq_iff_eq.mp hba
      simp [sumChanges, this]
    | cons h2 rest2 =>
      have hlast2 : (h2 :: rest2).getLast? = some t := by
        simpa [List.getLast?] using hlast
      have := ih (acc + h.credits_change) hrest hlast2
      rw [this]
      simp [sumChanges, add_assoc]

theorem ledgerInvariant_commit (db : LedgerDB) (user_id : String) (u : UserRow)
    (c : Int) (t : Txn) (hu : findUser db user_id = some u)
    (hinv : ledgerInvariant db user_id) (htu : t.user_id = user_id)
    (hc : c = u.credits + t.credits_change)
    (htb : t.credits_balance_after = c) :
    ledgerInvariant
      { users := setCredits db.users user_id c
        txns := db.txns ++ [t]
        nextId := db.nextId + 1
        now := db.now } user_id := by
  obtain ⟨h1, h2⟩ := hinv
  have hgc0 : getCredits db user_id = u.credits := by
    unfold getCredits
    rw [hu]
  have hgc : getCredits
      { users := setCredits db.users user_id c
        txns := db.txns ++ [t]
        nextId := db.nextId + 1
        now := db.now } user_id = c := by
    unfold getCredits findUser
    show (match (setCredits db.users user_id c).find? (fun u => u.id == user_id) with
      | none => (0 : Int)
      | some u => u.credits) = c
    rw [find?_setCredits]
    have hu2 : db.users.find? (fun u => u.id == user_id) = some u := hu
    rw [hu2]
    simp
  have hut : userTxns
      { users := setCredits db.users user_id c
        txns := db.txns ++ [t]
        nextId := db.nextId + 1
        now := db.now } user_id = userTxns db user_id ++ [t] := by
    unfold userTxns
    show (db.txns ++ [t]).filter (fun x => x.user_id == user_id) = _
    rw [List.filter_append]
    simp [List.filter, htu]
  have hsum : u.credits = sumChanges (userTxns db user_id) := by
    rw [← hgc0]; exact h1
  constructor
  · rw [hgc, hut, sumChanges_append, hc, hsum]
  · rw [hut, prefixSumOk_append, h2]
    simp [htb, hc, hsum]

theorem deduct_preserves_ledgerInvariant (db : LedgerDB) (user_id : String)
    (amount : Int) (transaction_type description : String)
    (session_id : Option String) (h : ledgerInvariant db user_id) :
    ledgerInvariant
      (deduct_credits db user_id amount transaction_type description
        session_id).1 user_id := by
  by_cases hchk : check_user_credits db user_id amount
  · cases hu : findUser db user_id with
    | none =>
      simp only [deduct_credits, hchk, if_true, hu]
      exact h
    | some u =>
      simp only [deduct_credits, hchk, if_true, hu]
      exact ledgerInvariant_commit db user_id u (u.credits - amount) _ hu h rfl
        (sub_eq_add_neg u.credits amount) rfl
  · simp only [deduct_credits, hchk]
    simpa using h

theorem add_preserves_ledgerInvariant (db : LedgerDB) (user_id : String)
    (amount : Int) (transaction_type description : String)
    (session_id : Option String) (h : ledgerInvariant db user_id) :
    ledgerInvariant
      (add_credits db user_id amount transaction_type description
        session_id).1 user_id := by
  cases hu : findUser db user_id with
  | none =>
    simp only [add_credits, hu]
    exact h
  | some u =>
    simp only [add_credits, hu]
    exact ledgerInvariant_commit db user_id u (u.credits + amount) _ hu h rfl
      rfl rfl

theorem ledgerInvariant_run (db : LedgerDB) (user_id : String)
    (ops : List LedgerOp) (h : ledgerInvariant db user_id) :
    ledgerInvariant (runLedgerOps db user_id ops) user_id := by
  induction ops generalizing db with
  | nil => exact h
  | cons op rest ih =>
    have hstep : ledgerInvariant (applyLedgerOp db user_id op).1 user_id := by
      cases op with
      | debit a t d s => exact deduct_preserves_ledgerInvariant db user_id a t d s h
      | credit a t d s => exact add_preserves_ledgerInvariant db user_id a t d s h
    exact ih _ hstep

/-- Claim C1: after any sequence of (successful) debit and credit
operations on one account starting from a state satisfying the ledger
invariant, the balance equals the sum of the `credits_change` values of
the log of the user, every entry of the log carries
`credits_balance_after` equal to the running prefix sum of
`credits_change`, and the last appended transaction snapshots the final
balance. -/
theorem C1_balance_equals_log_sum (db : LedgerDB) (user_id : String)
    (ops : List LedgerOp) (hinv : ledgerInvariant db user_id)
    (_hsucc : opsAllSucceed db user_id ops = true) :
    getCredits (runLedgerOps db user_id ops) user_id =
        sumChanges (userTxns (runLedgerOps db user_id ops) user_id) ∧
      prefixSumOk 0 (userTxns (runLedgerOps db user_id ops) user_id) = true ∧
      ∀ t, (userTxns (runLedgerOps db user_id ops) user_id).getLast? = some t →
        t.credits_balance_after =
          getCredits (runLedgerOps db user_id ops) user_id := by
  obtain ⟨h1, h2⟩ := ledgerInvariant_run db user_id ops hinv
  refine ⟨h1, h2, ?_⟩
  intro t ht
  have := prefixSumOk_getLast _ 0 t h2 ht
  rw [this, h1]
  simp

/-- Witness for C1: balance 0 with an empty log, then credit 5, debit 1,
credit 10; all operations succeed and the final balance of 14 equals the
log sum. -/
theorem C1_witness :
    ledgerInvariant exC1DB "u" ∧
      opsAllSucceed exC1DB "u" exC1Ops = true ∧
      getCredits (runLedgerOps exC1DB "u" exC1Ops) "u" =
        sumChanges (userTxns (runLedgerOps exC1DB "u" exC1Ops) "u") :=
  ⟨⟨by decide, by decide⟩, by decide,
    (C1_balance_equals_log_sum exC1DB "u" exC1Ops ⟨by decide, by decide⟩
      (by decide)).1⟩

/-- Claim C2 fails on the code: under the interleaving in which both calls
pass the sufficiency check and fetch the user before either commits, both
`deduct_credits` calls of amount 1 against a balance of 1 succeed — both
return `True`, two transactions of `credits_change = -1` are appended, and
the final balance is 0.  The check-then-write in `deduct_credits` is not
atomic, so the double spend the claim rules out is reachable. -/
theorem C2_double_spend_reachable :
    (runConc "u" exC2Start exC2Sched).procA.result = some true ∧
      (runConc "u" exC2Start exC2Sched).procB.result = some true ∧
      getCredits (runConc "u" exC2Start exC2Sched).db "u" = 0 ∧
      ((runConc "u" exC2Start exC2Sched).db.txns.map
        (fun t => t.credits_change)) = [-1, -1] := by
  decide

theorem mem_insertByCreatedAtDesc {b t : Txn} {l : List Txn} :
    b ∈ insertByCreatedAtDesc t l ↔ b = t ∨ b ∈ l := by
  induction l with
  | nil => simp [insertByCreatedAtDesc]
  | cons h rest ih =>
    rw [insertByCreatedAtDesc]
    by_cases hlt : h.created_at < t.created_at
    · simp only [if_pos hlt, List.mem_cons]
    · simp only [if_neg hlt, List.mem_cons, ih]
      tauto

theorem insertByCreatedAtDesc_sorted (t : Txn) (l : List Txn)
    (h : l.Pairwise (fun a b => b.created_at ≤ a.created_at)) :
    (insertByCreatedAtDesc t l).Pairwise
      (fun a b => b.created_at ≤ a.created_at) := by
  induction l with
  | nil => simp [insertByCreatedAtDesc]
  | cons h0 rest ih =>
    rw [List.pairwise_cons] at h
    obtain ⟨hhead, htail⟩ := h
    rw [insertByCreatedAtDesc]
    by_cases hlt : h0.created_at < t.created_at
    · rw [if_pos hlt]
      rw [List.pairwise_cons]
      refine ⟨?_, ?_⟩
      · intro b hb
        rcases List.mem_cons.mp hb with hb0 | hbr
        · rw [hb0]; exact le_of_lt hlt
        · exact le_trans (hhead b hbr) (le_of_lt hlt)
      · rw [List.pairwise_cons]
        exact ⟨hhead, htail⟩
    · rw [if_neg hlt]
      rw [List.pairwise_cons]
      refine ⟨?_, ih htail⟩
      intro b hb
      rcases mem_insertByCreatedAtDesc.mp hb with hb0 | hbr
      · rw [hb0]; exact le_of_not_lt hlt
      · exact hhead b hbr

theorem insertByCreatedAtDesc_perm (t : Txn) (l : List Txn) :
    (insertByCreatedAtDesc t l).Perm (t :: l) := by
  induction l with
  | nil => exact List.Perm.refl _
  | cons h rest ih =>
    rw [insertByCreatedAtDesc]
    by_cases hlt : h.created_at < t.created_at
    · rw [if_pos hlt]
    · rw [if_neg hlt]
      exact List.Perm.trans (ih.cons h) (List.Perm.swap t h rest)

theorem orderByCreatedAtDesc_sorted (l : List Txn) :
    (orderByCreatedAtDesc l).Pairwise
      (fun a b => b.created_at ≤ a.created_at) := by
  suffices h : ∀ acc, acc.Pairwise (fun a b => b.created_at ≤ a.created_at) →
      (l.foldl (fun acc t => insertByCreatedAtDesc t acc) acc).Pairwise
        (fun a b => b.created_at ≤ a.created_at) by
    exact h [] (by simp)
  induction l with
  | nil => intro acc hacc; exact hacc
  | cons t rest ih =>
    intro acc hacc
    exact ih _ (insertByCreatedAtDesc_sorted t acc hacc)

theorem orderByCreatedAtDesc_perm (l : List Txn) :
    (orderByCreatedAtDesc l).Perm l := by
  suffices h : ∀ acc,
      (l.foldl (fun acc t => insertByCreatedAtDesc t acc) acc).Perm (acc ++ l) by
    simpa using h []
  induction l with
  | nil => intro acc; simp [List.Perm.refl]
  | cons t rest ih =>
    intro acc
    have h1 := ih (insertByCreatedAtDesc t acc)
    have h2 : (insertByCreatedAtDesc t acc ++ rest).Perm ((t :: acc) ++ rest) :=
      (insertByCreatedAtDesc_perm t acc).append_right rest
    have h3 : ((t :: acc) ++ rest).Perm (acc ++ t :: rest) := by
      simpa using List.perm_middle.symm
    exact ((h1.trans h2).trans h3)

/-- Claim C8 (amended): the listing returns the total count of the rows of
the user, together with the `offset`/`limit` window of one fixed
newest-first sequence — a permutation of the rows of the user sorted by
`created_at` descending.  The query names no secondary sort key, so rows
with equal `created_at` keep their stored order; they are not re-sorted by
id descending. -/
theorem C8_listing_newest_first (db : LedgerDB) (user_id : String)
    (limit offset : Nat) :
    (get_credit_transactions db user_id limit offset).2 =
        (userTxns db user_id).length ∧
      (get_credit_transactions db user_id limit offset).1 =
        ((orderByCreatedAtDesc (userTxns db user_id)).drop offset).take limit ∧
      (orderByCreatedAtDesc (userTxns db user_id)).Pairwise
        (fun a b => b.created_at ≤ a.created_at) ∧
      (orderByCreatedAtDesc (userTxns db user_id)).Perm (userTxns db user_id) :=
  ⟨rfl, rfl, orderByCreatedAtDesc_sorted _, orderByCreatedAtDesc_perm _⟩

/-- Claim C8 counterexample: on a log holding two transactions of the same
user with equal `created_at` and ids 1 then 2, the listing returns them in
stored order [1, 2], not in the id-descending order [2, 1] the claim
asserts for ties. -/
theorem C8_counterexample_tie_order :
    ¬ newestFirstTiesIdDesc (get_credit_transactions exC8DB "u" 20 0).1 := by
  unfold newestFirstTiesIdDesc
  decide

theorem update_user_stats_progress (db : UsersDB) (user_id : String) :
    (update_user_stats db user_id).progress = db.progress := by
  unfold update_user_stats
  by_cases h : (db.progress.filter (fun p => p.user_id == user_id)).isEmpty
  · simp [h]
  · cases hf : db.stats.find? (fun s => s.user_id == user_id) <;> simp [h, hf]

theorem overwriteStats_user_id (P : List ProgressRecord) (user_id : String)
    (r : UserStatsRow) : (overwriteStats P user_id r).user_id = r.user_id := by
  unfold overwriteStats
  by_cases h : (r.user_id == user_id) <;> simp [h, recomputedStatsFields]

theorem overwriteStats_idem (P : List ProgressRecord) (user_id : String)
    (r : UserStatsRow) :
    overwriteStats P user_id (overwriteStats P user_id r) =
      overwriteStats P user_id r := by
  by_cases h : (r.user_id == user_id) <;>
    simp [overwriteStats, h, recomputedStatsFields]

theorem find?_map_overwriteStats (stats : List UserStatsRow)
    (P : List ProgressRecord) (user_id : String) :
    (stats.map (overwriteStats P user_id)).find?
        (fun s => s.user_id == user_id) =
      (stats.find? (fun s => s.user_id == user_id)).map
        (overwriteStats P user_id) := by
  rw [List.find?_map]
  have hfun : ((fun s : UserStatsRow => s.user_id == user_id) ∘
      overwriteStats P user_id) =
      (fun s : UserStatsRow => s.user_id == user_id) := by
    funext r
    simp [Function.comp, overwriteStats_user_id]
  rw [hfun]

theorem find?_append_row {stats : List UserStatsRow} {p : UserStatsRow → Bool}
    (row : UserStatsRow) (hnone : stats.find? p = none) (hrow : p row = true) :
    (stats ++ [row]).find? p = some row := by
  rw [List.find?_append, hnone]
  simp [List.find?, hrow]

theorem map_overwrite_of_find?_none (stats : List UserStatsRow)
    (P : List ProgressRecord) (user_id : String)
    (hnone : stats.find? (fun s => s.user_id == user_id) = none) :
    stats.map (overwriteStats P user_id) = stats := by
  have hall : ∀ r ∈ stats, overwriteStats P user_id r = r := by
    intro r hr
    have hb := List.find?_eq_none.mp hnone r hr
    simp only [Bool.not_eq_true] at hb
    simp [overwriteStats, hb]
  calc stats.map (overwriteStats P user_id) = stats.map (fun r => r) :=
        List.map_congr_left hall
    _ = stats := by simp

/-- Claim C5: stats recomputation is idempotent — a second consecutive
`update_user_stats` run with no intervening writes returns the identical
database, so the stats row of the user is identical in every modelled
field after the second run. -/
theorem C5_update_user_stats_idempotent (db : UsersDB) (user_id : String) :
    update_user_stats (update_user_stats db user_id) user_id =
      update_user_stats db user_id := by
  by_cases hP : (db.progress.filter (fun p => p.user_id == user_id)).isEmpty
  · have h1 : update_user_stats db user_id = db := by
      unfold update_user_stats
      simp [hP]
    rw [h1]
    exact h1
  · have hPf : (db.progress.filter (fun p => p.user_id == user_id)).isEmpty =
        false := by simpa using hP
    cases hfind : db.stats.find? (fun s => s.user_id == user_id) with
    | some s0 =>
      have h1 : update_user_stats db user_id =
          { db with
              stats := db.stats.map (overwriteStats
                (db.progress.filter (fun p => p.user_id == user_id)) user_id) } := by
        unfold update_user_stats
        simp [hPf, hfind]
      rw [h1]
      have hfind2 : (db.stats.map (overwriteStats
          (db.progress.filter (fun p => p.user_id == user_id)) user_id)).find?
            (fun s => s.user_id == user_id) =
          some (overwriteStats
            (db.progress.filter (fun p => p.user_id == user_id)) user_id s0) := by
        rw [find?_map_overwriteStats, hfind]
        rfl
      have h2 : update_user_stats
          { db with
              stats := db.stats.map (overwriteStats
                (db.progress.filter (fun p => p.user_id == user_id)) user_id) }
          user_id =
          { db with
              stats := (db.stats.map (overwriteStats
                (db.progress.filter (fun p => p.user_id == user_id)) user_id)).map
                  (overwriteStats
                    (db.progress.filter (fun p => p.user_id == user_id)) user_id) } := by
        unfold update_user_stats
        simp [hPf, hfind2]
      have hff : (overwriteStats
            (db.progress.filter (fun p => p.user_id == user_id)) user_id) ∘
          (overwriteStats
            (db.progress.filter (fun p => p.user_id == user_id)) user_id) =
          overwriteStats
            (db.progress.filter (fun p => p.user_id == user_id)) user_id := by
        funext r
        exact overwriteStats_idem
          (db.progress.filter (fun p => p.user_id == user_id)) user_id r
      rw [h2, List.map_map, hff]
    | none =>
      have h1 : update_user_stats db user_id =
          { db with
              stats := db.stats ++
                [recomputedStatsFields
                  (db.progress.filter (fun p => p.user_id == user_id))
                  (defaultStats db.nextStatsId user_id)]
              nextStatsId := db.nextStatsId + 1 } := by
        unfold update_user_stats
        simp [hPf, hfind]
      rw [h1]
      have hrow : ((recomputedStatsFields
          (db.progress.filter (fun p => p.user_id == user_id))
          (defaultStats db.nextStatsId user_id)).user_id == user_id) = true := by
        simp [recomputedStatsFields, defaultStats]
      have hfind2 : ((db.stats ++
          [recomputedStatsFields
            (db.progress.filter (fun p => p.user_id == user_id))
            (defaultStats db.nextStatsId user_id)]).find?
              (fun s => s.user_id == user_id)) =
          some (recomputedStatsFields
            (db.progress.filter (fun p => p.user_id == user_id))
            (defaultStats db.nextStatsId user_id)) :=
        find?_append_row _ hfind hrow
      have h2 : update_user_stats
          { db with
              stats := db.stats ++
                [recomputedStatsFields
                  (db.progress.filter (fun p => p.user_id == user_id))
                  (defaultStats db.nextStatsId user_id)]
              nextStatsId := db.nextStatsId + 1 } user_id =
          { db with
              stats := (db.stats ++
                [recomputedStatsFields
                  (db.progress.filter (fun p => p.user_id == user_id))
                  (defaultStats db.nextStatsId user_id)]).map
                    (overwriteStats
                      (db.progress.filter (fun p => p.user_id == user_id)) user_id)
              nextStatsId := db.nextStatsId + 1 } := by
        unfold update_user_stats
        simp [hPf, hfind2]
      rw [h2, List.map_append,
        map_overwrite_of_find?_none db.stats _ user_id hfind]
      have hfix : overwriteStats
          (db.progress.filter (fun p => p.user_id == user_id)) user_id
          (recomputedStatsFields
            (db.progress.filter (fun p => p.user_id == user_id))
            (defaultStats db.nextStatsId user_id)) =
          recomputedStatsFields
            (db.progress.filter (fun p => p.user_id == user_id))
            (defaultStats db.nextStatsId user_id) := by
        simp [overwriteStats, hrow, recomputedStatsFields, defaultStats]
      simp [hfix]

/-- Claim C6: the record built and stored by `create_progress_record`
carries as `overall_score` the mean of the non-null axis scores, null
exactly when all three are absent; in particular only
`voice_score = 3.5` gives 3.5, and `content_score = 4.0,
voice_score = 3.5, face_score = 4.2` gives (4.0 + 3.5 + 4.2) / 3 = 3.9. -/
theorem C6_overall_score_is_mean (db : UsersDB) (user_id : String)
    (progress_data : UserProgressCreate) :
    ((create_progress_record db user_id progress_data).2.overall_score =
        computeOverallScore progress_data.content_score
          progress_data.voice_score progress_data.face_score) ∧
      ((create_progress_record db user_id progress_data).2.overall_score = none ↔
        progress_data.content_score = none ∧ progress_data.voice_score = none ∧
          progress_data.face_score = none) ∧
      (create_progress_record db user_id progress_data).2 ∈
        (create_progress_record db user_id progress_data).1.progress ∧
      (create_progress_record initialUsersDB "u" exVoiceOnly).2.overall_score =
        some (3.5 : ℚ) ∧
      (create_progress_record initialUsersDB "u" exAllThree).2.overall_score =
        some (3.9 : ℚ) := by
  refine ⟨rfl, ?_, ?_, ?_, ?_⟩
  · rcases hc : progress_data.content_score with _ | c <;>
      rcases hv : progress_data.voice_score with _ | v <;>
      rcases hf : progress_data.face_score with _ | f <;>
      simp [create_progress_record, computeOverallScore, hc, hv, hf]
  · unfold create_progress_record
    simp [update_user_stats_progress]
  · show computeOverallScore none (some (3.5 : ℚ)) none = some (3.5 : ℚ)
    norm_num [computeOverallScore, List.filterMap_cons, List.filterMap_nil]
  · show computeOverallScore (some (4.0 : ℚ)) (some (3.5 : ℚ))
      (some (4.2 : ℚ)) = some (3.9 : ℚ)
    norm_num [computeOverallScore, List.filterMap_cons, List.filterMap_nil]

/-- Claim C7 fails on the code at the empty-history input: for a user with
no progress records and no stats row, `update_user_stats` returns early —
it neither creates nor overwrites a stats row, leaving the database
unchanged, whereas the claim asserts upsert semantics even for an empty
history. -/
theorem C7_counterexample_empty_history :
    update_user_stats initialUsersDB "u" = initialUsersDB ∧
      (update_user_stats initialUsersDB "u").stats = [] :=
  ⟨rfl, rfl⟩

/-- Claim C7 (amended): when the user has at least one progress record,
`update_user_stats` upserts — afterwards the stats table holds a row for
the user whose recomputed columns equal the aggregates over the full
history (the row is created from defaults when absent, overwritten in
place otherwise), and the progress table is untouched.  When the history
is empty the function returns without writing anything. -/
theorem C7_upsert_on_nonempty_history (db : UsersDB) (user_id : String)
    (h : (db.progress.filter (fun p => p.user_id == user_id)).isEmpty = false) :
    (∃ r, (update_user_stats db user_id).stats.find?
        (fun s => s.user_id == user_id) = some r ∧
      r.total_sessions =
        ((db.progress.filter (fun p => p.user_id == user_id)).length : Int) ∧
      r.average_content_score = statsAvg ((db.progress.filter
        (fun p => p.user_id == user_id)).filterMap (fun p => p.content_score)) ∧
      r.average_voice_score = statsAvg ((db.progress.filter
        (fun p => p.user_id == user_id)).filterMap (fun p => p.voice_score)) ∧
      r.average_face_score = statsAvg ((db.progress.filter
        (fun p => p.user_id == user_id)).filterMap (fun p => p.face_score)) ∧
      r.average_overall_score = statsAvg ((db.progress.filter
        (fun p => p.user_id == user_id)).filterMap (fun p => p.overall_score)) ∧
      r.best_overall_score = ((db.progress.filter
        (fun p => p.user_id == user_id)).filterMap (fun p => p.overall_score)).max? ∧
      r.most_recent_session = ((db.progress.filter
        (fun p => p.user_id == user_id)).map (fun p => p.session_date)).max?) ∧
    (update_user_stats db user_id).progress = db.progress := by
  refine ⟨?_, update_user_stats_progress db user_id⟩
  cases hfind : db.stats.find? (fun s => s.user_id == user_id) with
  | some s0 =>
    have h1 : update_user_stats db user_id =
        { db with
            stats := db.stats.map (overwriteStats
              (db.progress.filter (fun p => p.user_id == user_id)) user_id) } := by
      unfold update_user_stats
      simp [h, hfind]
    refine ⟨recomputedStatsFields
      (db.progress.filter (fun p => p.user_id == user_id)) s0, ?_, rfl, rfl,
      rfl, rfl, rfl, rfl, rfl⟩
    rw [h1]
    show (db.stats.map (overwriteStats
        (db.progress.filter (fun p => p.user_id == user_id)) user_id)).find?
        (fun s => s.user_id == user_id) = _
    rw [find?_map_overwriteStats, hfind]
    have hs0 := List.find?_some hfind
    simp only [] at hs0
    simp [overwriteStats, hs0]
  | none =>
    have h1 : update_user_stats db user_id =
        { db with
            stats := db.stats ++
              [recomputedStatsFields
                (db.progress.filter (fun p => p.user_id == user_id))
                (defaultStats db.nextStatsId user_id)]
            nextStatsId := db.nextStatsId + 1 } := by
      unfold update_user_stats
      simp [h, hfind]
    refine ⟨recomputedStatsFields
      (db.progress.filter (fun p => p.user_id == user_id))
      (defaultStats db.nextStatsId user_id), ?_, rfl, rfl, rfl, rfl, rfl, rfl,
      rfl⟩
    rw [h1]
    show (db.stats ++
        [recomputedStatsFields
          (db.progress.filter (fun p => p.user_id == user_id))
          (defaultStats db.nextStatsId user_id)]).find?
        (fun s => s.user_id == user_id) = _
    exact find?_append_row _ hfind (by simp [recomputedStatsFields, defaultStats])

/-- Witness for the amended C7 at a concrete state: one progress record
for user u and no pre-existing stats row; the upsert creates the row and
recomputes its aggregates. -/
theorem C7_witness :
    ((exC7DB.progress.filter (fun p => p.user_id == "u")).isEmpty = false) ∧
      ((∃ r, (update_user_stats exC7DB "u").stats.find?
          (fun s => s.user_id == "u") = some r ∧
        r.total_sessions =
          ((exC7DB.progress.filter (fun p => p.user_id == "u")).length : Int) ∧
        r.average_content_score = statsAvg ((exC7DB.progress.filter
          (fun p => p.user_id == "u")).filterMap (fun p => p.content_score)) ∧
        r.average_voice_score = statsAvg ((exC7DB.progress.filter
          (fun p => p.user_id == "u")).filterMap (fun p => p.voice_score)) ∧
        r.average_face_score = statsAvg ((exC7DB.progress.filter
          (fun p => p.user_id == "u")).filterMap (fun p => p.face_score)) ∧
        r.average_overall_score = statsAvg ((exC7DB.progress.filter
          (fun p => p.user_id == "u")).filterMap (fun p => p.overall_score)) ∧
        r.best_overall_score = ((exC7DB.progress.filter
          (fun p => p.user_id == "u")).filterMap (fun p => p.overall_score)).max? ∧
        r.most_recent_session = ((exC7DB.progress.filter
          (fun p => p.user_id == "u")).map (fun p => p.session_date)).max?) ∧
      (update_user_stats exC7DB "u").progress = exC7DB.progress) :=
  ⟨by decide, C7_upsert_on_nonempty_history exC7DB "u" (by decide)⟩

theorem freshStatsInv_initial : freshStatsInv initialUsersDB := by
  intro s hs
  cases hs

theorem freshStatsInv_get_user_stats (db : UsersDB) (user_id : String)
    (h : freshStatsInv db) : freshStatsInv (get_user_stats db user_id).1 := by
  unfold get_user_stats
  cases hfind : db.stats.find? (fun s => s.user_id == user_id) with
  | some s => exact h
  | none =>
    intro s hs hfil
    rcases List.mem_append.mp hs with hs1 | hs2
    · exact h s hs1 hfil
    · have hdef : s = defaultStats db.nextStatsId user_id := by simpa using hs2
      subst hdef
      exact ⟨rfl, rfl, rfl, rfl, rfl⟩

theorem freshStatsInv_update_user_stats (db : UsersDB) (user_id : String)
    (h : freshStatsInv db) : freshStatsInv (update_user_stats db user_id) := by
  by_cases hP : (db.progress.filter (fun p => p.user_id == user_id)).isEmpty
  · have h1 : update_user_stats db user_id = db := by
      unfold update_user_stats
      simp [hP]
    rw [h1]
    exact h
  · have hPf : (db.progress.filter (fun p => p.user_id == user_id)).isEmpty =
        false := by simpa using hP
    cases hfind : db.stats.find? (fun s => s.user_id == user_id) with
    | some s0 =>
      have h1 : update_user_stats db user_id =
          { db with
              stats := db.stats.map (overwriteStats
                (db.progress.filter (fun p => p.user_id == user_id)) user_id) } := by
        unfold update_user_stats
        simp [hPf, hfind]
      rw [h1]
      intro s hs hfil
      rcases List.mem_map.mp hs with ⟨r, hr, rfl⟩
      by_cases hb : (r.user_id == user_id)
      · exfalso
        rw [overwriteStats_user_id] at hfil
        rw [beq_iff_eq.mp hb] at hfil
        rw [hfil] at hPf
        simp at hPf
      · have hfr : overwriteStats
            (db.progress.filter (fun p => p.user_id == user_id)) user_id r = r := by
          simp only [Bool.not_eq_true] at hb
          simp [overwriteStats, hb]
        rw [hfr] at hfil ⊢
        exact h r hr hfil
    | none =>
      have h1 : update_user_stats db user_id =
          { db with
              stats := db.stats ++
                [recomputedStatsFields
                  (db.progress.filter (fun p => p.user_id == user_id))
                  (defaultStats db.nextStatsId user_id)]
              nextStatsId := db.nextStatsId + 1 } := by
        unfold update_user_stats
        simp [hPf, hfind]
      rw [h1]
      intro s hs hfil
      rcases List.mem_append.mp hs with hs1 | hs2
      · exact h s hs1 hfil
      · exfalso
        have hdef : s = recomputedStatsFields
            (db.progress.filter (fun p => p.user_id == user_id))
            (defaultStats db.nextStatsId user_id) := by simpa using hs2
        subst hdef
        have : (recomputedStatsFields
            (db.progress.filter (fun p => p.user_id == user_id))
            (defaultStats db.nextStatsId user_id)).user_id = user_id := rfl
        rw [this] at hfil
        rw [hfil] at hPf
        simp at hPf

theorem freshStatsInv_append_progress (db : UsersDB) (rec : ProgressRecord)
    (n : Nat) (h : freshStatsInv db) :
    freshStatsInv
      { db with progress := db.progress ++ [rec], nextProgressId := n } := by
  intro s hs hfil
  simp only [List.filter_append] at hfil
  obtain ⟨h1, _⟩ := List.append_eq_nil.mp hfil
  exact h s hs h1

theorem freshStatsInv_create_progress_record (db : UsersDB) (user_id : String)
    (d : UserProgressCreate) (h : freshStatsInv db) :
    freshStatsInv (create_progress_record db user_id d).1 :=
  freshStatsInv_update_user_stats _ user_id
    (freshStatsInv_append_progress db _ _ h)

theorem freshStatsInv_apply (db : UsersDB) (op : UsersOp)
    (h : freshStatsInv db) : freshStatsInv (applyUsersOp db op) := by
  cases op with
  | record user_id d => exact freshStatsInv_create_progress_record db user_id d h
  | stats user_id => exact freshStatsInv_get_user_stats db user_id h
  | recompute user_id => exact freshStatsInv_update_user_stats db user_id h

theorem freshStatsInv_run (db : UsersDB) (ops : List UsersOp)
    (h : freshStatsInv db) : freshStatsInv (runUsersOps db ops) := by
  induction ops generalizing db with
  | nil => exact h
  | cons op rest ih => exact ih _ (freshStatsInv_apply db op h)

/-- Claim C9: in every state reachable through the progress/stats calls
from the empty initial state, a user with no progress records requesting
stats receives a row (the call is total, not an error) with
`total_sessions = 0` and all four averages null. -/
theorem C9_no_progress_default_stats (ops : List UsersOp) (user_id : String)
    (hnone : (runUsersOps initialUsersDB ops).progress.filter
        (fun p => p.user_id == user_id) = []) :
    (get_user_stats (runUsersOps initialUsersDB ops) user_id).2.total_sessions
        = 0 ∧
      (get_user_stats (runUsersOps initialUsersDB ops)
        user_id).2.average_content_score = none ∧
      (get_user_stats (runUsersOps initialUsersDB ops)
        user_id).2.average_voice_score = none ∧
      (get_user_stats (runUsersOps initialUsersDB ops)
        user_id).2.average_face_score = none ∧
      (get_user_stats (runUsersOps initialUsersDB ops)
        user_id).2.average_overall_score = none := by
  have hinv : freshStatsInv (runUsersOps initialUsersDB ops) :=
    freshStatsInv_run initialUsersDB ops freshStatsInv_initial
  cases hfind : (runUsersOps initialUsersDB ops).stats.find?
      (fun s => s.user_id == user_id) with
  | some s =>
    have h2 : (get_user_stats (runUsersOps initialUsersDB ops) user_id).2 = s := by
      unfold get_user_stats
      rw [hfind]
    rw [h2]
    have hs := List.mem_of_find?_eq_some hfind
    have hp0 := List.find?_some hfind
    have hp : s.user_id = user_id := by simpa using hp0
    exact hinv s hs (by rw [hp]; exact hnone)
  | none =>
    have h2 : (get_user_stats (runUsersOps initialUsersDB ops) user_id).2 =
        defaultStats (runUsersOps initialUsersDB ops).nextStatsId user_id := by
      unfold get_user_stats
      rw [hfind]
    rw [h2]
    exact ⟨rfl, rfl, rfl, rfl, rfl⟩

/-- Witness for C9: after a stats read for user v and a recorded session
for user v, user u still has no progress records, and the stats request
for u returns the zero/null row. -/
theorem C9_witness :
    ((runUsersOps initialUsersDB
      [UsersOp.stats "v", UsersOp.record "v" exNoScores]).progress.filter
        (fun p => p.user_id == "u") = []) ∧
      (get_user_stats (runUsersOps initialUsersDB
        [UsersOp.stats "v", UsersOp.record "v" exNoScores])
        "u").2.total_sessions = 0 :=
  ⟨by decide,
    (C9_no_progress_default_stats
      [UsersOp.stats "v", UsersOp.record "v" exNoScores] "u" (by decide)).1⟩

end Mockly
